import Mathlib

/-!
Shallow embedding of the game-of-life engine of this repository
(`tkinter_cell.py`, `tkinter_game_board.py`, together with the resize path of
`tkinter_gui.py`), and theorems settling the frozen claims about it.

Modelling conventions:
* `CellState` mirrors the two-valued `CellState` enum.
* Python `Cell` objects carry no data beyond their mutable state, and each cell
  object sits at a fixed grid position for the whole life of a board (the
  `_cell_positions` dictionary is written once per cell and never updated), so a
  cell is identified here with its `(x, y)` position and the grid is the list of
  rows of states.  A delta `(cell, state)` is rendered as `((x, y), state)`.
* The random source `randint(0, 2)` is modelled by an arbitrary draw function
  `rand : Nat → Nat → Nat` giving the draw used at position `(x, y)`; the code
  makes one independent draw per cell, and only the comparison `draw == 0`
  matters.
* Python exceptions that the engine can actually raise (`KeyError` from the
  rules dictionary, `IndexError` from list indexing) are modelled by `Except
  PyErr`; negative-index wraparound of Python lists is modelled faithfully by
  `pyIndex`.  In-place mutation is modelled by returning the board value that
  the Python object holds after the call — also in the error cases, where the
  mutations performed before the exception persist.
-/

/-- The two cell states of `tkinter_cell.CellState`. -/
inductive CellState where
  | dead
  | alive
deriving DecidableEq

/-- `Cell.toggle_state`: flip dead to alive and alive to dead; the returned
value is the new state. -/
def toggledState : CellState → CellState
  | .dead => .alive
  | .alive => .dead

/-- Exceptions the embedded engine can raise. -/
inductive PyErr where
  | keyError
  | indexError
deriving DecidableEq

/-- `GameRules._transitions`: a nested dictionary.  The outer keys `alive` and
`dead` always exist; the inner dictionary maps a neighbor count to the next
state, and a missing inner key (`none`) raises `KeyError` when looked up. -/
structure GameRules where
  transitions : CellState → Nat → Option CellState

/-- The table built by `GameRules.__init__`: alive cells survive at counts 2
and 3 and otherwise die, dead cells become alive at count 3 and otherwise stay
dead; entries exist exactly for counts 0 through 8. -/
def defaultRules : GameRules where
  transitions s n :=
    match s with
    | .alive =>
      if n = 2 ∨ n = 3 then some .alive
      else if n ≤ 8 then some .dead else none
    | .dead =>
      if n = 3 then some .alive
      else if n ≤ 8 then some .dead else none

/-- `GameRules.set_rule`: dictionary assignment, overwriting or adding the
single entry at `(s, n)`. -/
def setRule (r : GameRules) (s : CellState) (n : Nat) (ns : CellState) : GameRules where
  transitions s' n' := if s' = s ∧ n' = n then some ns else r.transitions s' n'

/-- The grid `GameBoard._board`: a list of rows, row `y` holding the states of
the cells `(0, y), (1, y), …`. -/
abbrev Grid := List (List CellState)

/-- State of the cell at position `p = (x, y)` (used only at positions that
exist in the grid; the default is irrelevant there). -/
def cellAt (g : Grid) (p : Nat × Nat) : CellState :=
  (g.getD p.2 []).getD p.1 .dead

/-- Overwrite the state of the cell at `p = (x, y)` (models mutating the cell
object held at that position). -/
def setCell (g : Grid) (p : Nat × Nat) (s : CellState) : Grid :=
  g.set p.2 ((g.getD p.2 []).set p.1 s)

/-- `GameBoard._DIRECTIONS`: `product([-1, 0, 1], repeat=2)` minus `(0, 0)`,
in enumeration order. -/
def directionsList : List (Int × Int) :=
  [(-1, -1), (-1, 0), (-1, 1), (0, -1), (0, 1), (1, -1), (1, 0), (1, 1)]

/-- `GameBoard._find_neighbors` for the cell at `(x, y)`: for each direction,
skip it when the offset coordinate falls outside `[0, w) × [0, h)`, else keep
the offset position. -/
def findNeighbors (w h : Int) (x y : Nat) : List (Nat × Nat) :=
  directionsList.filterMap fun d =>
    if (x : Int) + d.1 < 0 ∨ w ≤ (x : Int) + d.1 then none
    else if (y : Int) + d.2 < 0 ∨ h ≤ (y : Int) + d.2 then none
    else some (((x : Int) + d.1).toNat, ((y : Int) + d.2).toNat)

/-- The state of `GameBoard`.  `numCellsX`/`numCellsY` are the dimensions read
from the config at construction (arbitrary ints); `liveCount` is the
incrementally maintained `_live_count` (an int — the code only ever adds and
subtracts, so it can drift below zero); `generation` is `_generation`;
`initialChanges` is `_initial_changes`.  The shared `_rules` reference is kept
as a field. -/
structure GameBoard where
  numCellsX : Int
  numCellsY : Int
  rules : GameRules
  board : Grid
  generation : Nat
  liveCount : Int
  initialChanges : List ((Nat × Nat) × CellState)

/-- Python `range(n)` (empty for `n ≤ 0`). -/
def pyRange (n : Int) : List Nat := List.range n.toNat

/-- The grid built by `GameBoard._generate`: for each `y in range(h)` a row of
cells for `x in range(w)`, each alive exactly when its random draw is 0. -/
def seedGrid (w h : Int) (rand : Nat → Nat → Nat) : Grid :=
  (pyRange h).map fun y => (pyRange w).map fun x =>
    if rand x y = 0 then .alive else .dead

/-- Number of alive cells in the grid, by full scan. -/
def aliveCount (g : Grid) : Nat :=
  (g.map fun row => (row.filter fun c => c = CellState.alive).length).sum

/-- Total number of cells in the grid. -/
def gridCellCount (g : Grid) : Nat := (g.map List.length).sum

/-- Positions `(x, y)` of one row of length `len` at height `y`. -/
def rowPositions (y len : Nat) : List (Nat × Nat) :=
  (List.range len).map fun x => (x, y)

/-- Positions of all cells of the rows of a grid starting at height `y`,
in the iteration order `for row in board: for cell in row`. -/
def boardPositionsAux (y : Nat) : Grid → List (Nat × Nat)
  | [] => []
  | row :: rest => rowPositions y row.length ++ boardPositionsAux (y + 1) rest

/-- Positions of all cells of a grid in iteration (row-major) order. -/
def boardPositions (g : Grid) : List (Nat × Nat) := boardPositionsAux 0 g

/-- The `_initial_changes` list built while seeding: one `(cell, alive)` entry
per alive cell, in iteration order. -/
def initialAlive (g : Grid) : List ((Nat × Nat) × CellState) :=
  (boardPositions g).filterMap fun p =>
    if cellAt g p = CellState.alive then some (p, CellState.alive) else none

/-- `GameBoard.__init__` together with `_generate` and `_create_neighbor_map`:
read the dimensions from the config, seed the grid, count the alive cells into
`_live_count`, record the initial changes, start at generation 0.  (The
neighbor map is a pure function of the dimensions and is recomputed on demand
here; it is built once and the dimensions of a board never change, so the two
agree.) -/
def mkBoard (w h : Int) (r : GameRules) (rand : Nat → Nat → Nat) : GameBoard :=
  let grid := seedGrid w h rand
  { numCellsX := w
    numCellsY := h
    rules := r
    board := grid
    generation := 0
    liveCount := (aliveCount grid : Int)
    initialChanges := initialAlive grid }

/-- `GameBoard._get_num_live_neighbors` for the cell at `p`, reading the
current states of the precomputed neighbors. -/
def numLiveNeighbors (w h : Int) (g : Grid) (p : Nat × Nat) : Nat :=
  ((findNeighbors w h p.1 p.2).filter fun q => cellAt g q = CellState.alive).length

/-- The scan loop of `GameBoard.update`: walk the cells in iteration order,
look up the next state of each from the pre-step grid `g`, accumulate the
deltas (`tkinter_data`) and the running `_live_count` adjustment; a missing
rules entry aborts the scan with the `KeyError` flag set, keeping the
adjustments made so far. -/
def scanCells (r : GameRules) (w h : Int) (g : Grid) :
    List (Nat × Nat) → List ((Nat × Nat) × CellState) → Int →
    List ((Nat × Nat) × CellState) × Int × Bool
  | [], acc, ld => (acc, ld, false)
  | p :: ps, acc, ld =>
    match r.transitions (cellAt g p) (numLiveNeighbors w h g p) with
    | none => (acc, ld, true)
    | some ns =>
      if ns = cellAt g p then scanCells r w h g ps acc ld
      else scanCells r w h g ps (acc ++ [(p, ns)])
        (ld + if ns = CellState.alive then 1 else -1)

/-- The commit phase of `GameBoard.update`: apply the recorded transitions.
(The code applies the `spawning` list then the `dying` list; these partition
the delta list and touch disjoint cells, so applying the deltas in order is the
same assignment of states.) -/
def applyChanges (g : Grid) : List ((Nat × Nat) × CellState) → Grid
  | [] => g
  | (p, s) :: rest => applyChanges (setCell g p s) rest

/-- `GameBoard.update`: increment `_generation`, scan all cells against the
pre-step grid, then apply the transitions and return the delta list.  The
`_live_count` additions happen during the scan and `_generation += 1` happens
first, so when a rules lookup raises, the board keeps the incremented
generation and the partial count adjustments while the cells are untouched. -/
def GameBoard.update (b : GameBoard) :
    GameBoard × Except PyErr (List ((Nat × Nat) × CellState)) :=
  let scan := scanCells b.rules b.numCellsX b.numCellsY b.board
    (boardPositions b.board) [] 0
  if scan.2.2 then
    ({ b with generation := b.generation + 1, liveCount := b.liveCount + scan.2.1 },
     Except.error PyErr.keyError)
  else
    ({ b with generation := b.generation + 1, liveCount := b.liveCount + scan.2.1,
              board := applyChanges b.board scan.1 },
     Except.ok scan.1)

/-- `GameBoard.clear`: set every cell dead.  Nothing else is touched — in
particular `_live_count`, `_generation` and `_initial_changes` keep their
values, and the method returns `None` (no deltas). -/
def GameBoard.clear (b : GameBoard) : GameBoard :=
  { b with board := b.board.map fun row => row.map fun _ => CellState.dead }

/-- The reseeding loop of `GameBoard.reset`: every cell of the (just cleared)
grid is redrawn, alive exactly when its new draw is 0; the row heights are
tracked so each cell at `(x, y)` uses draw `rand x y`. -/
def reseedGridAux (rand : Nat → Nat → Nat) (y : Nat) : Grid → Grid
  | [] => []
  | row :: rest =>
    ((List.range row.length).map fun x =>
        if rand x y = 0 then CellState.alive else CellState.dead) ::
      reseedGridAux rand (y + 1) rest

/-- `GameBoard.reset`: generation back to 0, clear, `_live_count` back to 0 and
re-counted while reseeding, `_initial_changes` rebuilt. -/
def GameBoard.reset (b : GameBoard) (rand : Nat → Nat → Nat) : GameBoard :=
  let grid := reseedGridAux rand 0 b.board
  { b with generation := 0
           board := grid
           liveCount := (aliveCount grid : Int)
           initialChanges := initialAlive grid }

/-- Python list indexing: index `i` of a list of length `len` resolves to `i`
for `0 ≤ i < len`, wraps to `len + i` for `-len ≤ i < 0`, and raises
`IndexError` (`none`) otherwise. -/
def pyIndex (len : Nat) (i : Int) : Option Nat :=
  if 0 ≤ i ∧ i < (len : Int) then some i.toNat
  else if -(len : Int) ≤ i ∧ i < 0 then some (i + len).toNat
  else none

/-- `GameBoard.toggle_cell`: `get_cell` evaluates `self._board[y][x]` with
Python list-index semantics, the cell's `toggle_state` flips it, and the single
`(cell, new_state)` delta is returned.  `_live_count` and `_generation` are not
touched. -/
def GameBoard.toggleCell (b : GameBoard) (x y : Int) :
    Except PyErr (GameBoard × List ((Nat × Nat) × CellState)) :=
  match pyIndex b.board.length y with
  | none => Except.error PyErr.indexError
  | some yi =>
    match pyIndex (b.board.getD yi []).length x with
    | none => Except.error PyErr.indexError
    | some xi =>
      let ns := toggledState (cellAt b.board (xi, yi))
      Except.ok ({ b with board := setCell b.board (xi, yi) ns }, [((xi, yi), ns)])

/-- `GameBoard.__init__` with its exception behavior made explicit: the
constructor body contains no raising operation (the `range` loops accept any
ints and are empty for nonpositive sizes, every dictionary access is to a key
just inserted, and the list indexing in `_find_neighbors` is guarded by the
bounds checks), so construction returns normally for every input — there is no
dimension validation. -/
def mkBoardE (w h : Int) (r : GameRules) (rand : Nat → Nat → Nat) :
    Except PyErr GameBoard :=
  Except.ok (mkBoard w h r rand)

/-- `GameBoardGUI.change_size`: the old board is dropped, a fresh `GameBoard`
is constructed from the (new) config, and `reset` is called on it immediately;
`rand1` seeds the construction and `rand2` the reset. -/
def changeSize (w h : Int) (r : GameRules) (rand1 rand2 : Nat → Nat → Nat) :
    GameBoard :=
  (mkBoard w h r rand1).reset rand2

/-- The per-cell transition of one step, as a function of the pre-step grid
alone: `none` when the cell keeps its state (or the rules entry is missing),
`some (p, ns)` when the cell at `p` changes to `ns`. -/
def cellDelta (r : GameRules) (w h : Int) (g : Grid) (p : Nat × Nat) :
    Option ((Nat × Nat) × CellState) :=
  (r.transitions (cellAt g p) (numLiveNeighbors w h g p)).bind fun ns =>
    if ns = cellAt g p then none else some (p, ns)

/-- The delta list of a step described cell by cell from the pre-step board
snapshot: the changed cells in iteration order, each with its next state
computed from the pre-step states only. -/
def simultaneousDeltas (b : GameBoard) : List ((Nat × Nat) × CellState) :=
  (boardPositions b.board).filterMap
    (cellDelta b.rules b.numCellsX b.numCellsY b.board)

/-- Net live-count contribution of a delta list: `+1` per cell becoming alive,
`-1` per cell becoming dead. -/
def deltaWeight (ds : List ((Nat × Nat) × CellState)) : Int :=
  (ds.map fun d => if d.2 = CellState.alive then (1 : Int) else -1).sum

/-- Row-major (scan) order on positions: smaller `y` first, then smaller `x`
within a row. -/
def rmLt (p q : Nat × Nat) : Prop := p.2 < q.2 ∨ (p.2 = q.2 ∧ p.1 < q.1)

/-- All positions of a `w × h` grid in row-major order. -/
def rowMajor (w h : Nat) : List (Nat × Nat) :=
  (List.range h).flatMap fun y => rowPositions y w

instance (ε α : Type) [DecidableEq ε] [DecidableEq α] : DecidableEq (Except ε α) :=
  fun a b =>
    match a, b with
    | .ok x, .ok y =>
      if h : x = y then isTrue (by rw [h]) else isFalse (by simp [h])
    | .error x, .error y =>
      if h : x = y then isTrue (by rw [h]) else isFalse (by simp [h])
    | .ok _, .error _ => isFalse (by simp)
    | .error _, .ok _ => isFalse (by simp)

/-- The board state after `toggle_cell` (unchanged when the call raises). -/
def toggleResBoard (b : GameBoard) (x y : Int) : GameBoard :=
  match b.toggleCell x y with
  | Except.ok res => res.1
  | Except.error _ => b

/-- The delta list returned by `toggle_cell` (empty when the call raises). -/
def toggleDeltas (b : GameBoard) (x y : Int) : List ((Nat × Nat) × CellState) :=
  match b.toggleCell x y with
  | Except.ok res => res.2
  | Except.error _ => []

/-- Claim C1: the live-count invariant is broken by `clear`.  On a 1×1 board
whose single cell was seeded alive (`_live_count = 1`), `clear()` kills the
cell but leaves `_live_count` at 1, while a full scan of the grid finds 0 alive
cells. -/
theorem clear_breaks_live_count_invariant :
    ((mkBoard 1 1 defaultRules fun _ _ => 0).clear).liveCount = 1 ∧
    aliveCount ((mkBoard 1 1 defaultRules fun _ _ => 0).clear).board = 0 := by
  decide

/-- Claim C4: `clear()` on a 1×2 board with both cells alive makes every cell
dead and leaves the generation unchanged, but `_live_count` stays at 2 instead
of the specified 0. -/
theorem clear_leaves_stale_live_count :
    ((mkBoard 2 1 defaultRules fun _ _ => 0).clear).board
      = [[CellState.dead, CellState.dead]] ∧
    ((mkBoard 2 1 defaultRules fun _ _ => 0).clear).generation
      = (mkBoard 2 1 defaultRules fun _ _ => 0).generation ∧
    ((mkBoard 2 1 defaultRules fun _ _ => 0).clear).liveCount = 2 := by
  decide

/-- Claim C3: `toggle_cell(-1, 0)` on an all-dead 2×2 board raises no error:
Python's negative indexing wraps to the cell `(1, 0)`, which is toggled alive
and reported in the delta, while `_live_count` is left at 0 although the scan
now finds 1 alive cell. -/
theorem toggle_negative_index_no_error :
    ((mkBoard 2 2 defaultRules fun _ _ => 1).toggleCell (-1) 0).isOk = true ∧
    toggleDeltas (mkBoard 2 2 defaultRules fun _ _ => 1) (-1) 0
      = [((1, 0), CellState.alive)] ∧
    (toggleResBoard (mkBoard 2 2 defaultRules fun _ _ => 1) (-1) 0).liveCount = 0 ∧
    aliveCount (toggleResBoard (mkBoard 2 2 defaultRules fun _ _ => 1) (-1) 0).board
      = 1 := by
  decide

/-- Claim C5: construction with width 0 does not fail — `__init__` runs no
validation and returns a board with five empty rows and no cells. -/
theorem construction_zero_width_succeeds :
    (mkBoardE 0 5 defaultRules fun _ _ => 0).isOk = true ∧
    gridCellCount (mkBoard 0 5 defaultRules fun _ _ => 0).board = 0 := by
  decide

/-- Claim C6: with a rule table whose entry for `(dead, 0)` was removed, a 1×1
all-dead board makes `step()` raise a `KeyError`, yet the board's generation
counter has already been incremented from 0 to 1 when the error propagates —
the failure is not free of state mutation. -/
theorem step_error_increments_generation :
    ((mkBoard 1 1
        { transitions := fun s n =>
            if s = CellState.dead ∧ n = 0 then none
            else defaultRules.transitions s n }
        fun _ _ => 1).update).2 = Except.error PyErr.keyError ∧
    ((mkBoard 1 1
        { transitions := fun s n =>
            if s = CellState.dead ∧ n = 0 then none
            else defaultRules.transitions s n }
        fun _ _ => 1).update).1.generation = 1 ∧
    (mkBoard 1 1
        { transitions := fun s n =>
            if s = CellState.dead ∧ n = 0 then none
            else defaultRules.transitions s n }
        fun _ _ => 1).generation = 0 := by
  decide

theorem scanCells_ok_or_flag (r : GameRules) (w h : Int) (g : Grid) :
    ∀ (ps : List (Nat × Nat)) (acc : List ((Nat × Nat) × CellState)) (ld : Int),
      (scanCells r w h g ps acc ld).2.2 = true ∨
      ((scanCells r w h g ps acc ld).2.2 = false ∧
        (scanCells r w h g ps acc ld).1 = acc ++ ps.filterMap (cellDelta r w h g)) := by
  intro ps
  induction ps with
  | nil => intro acc ld; right; simp [scanCells]
  | cons p ps ih =>
    intro acc ld
    rcases htr : r.transitions (cellAt g p) (numLiveNeighbors w h g p) with _ | ns
    · left
      simp [scanCells, htr]
    · by_cases hns : ns = cellAt g p
      · have hstep : scanCells r w h g (p :: ps) acc ld = scanCells r w h g ps acc ld := by
          simp [scanCells, htr, hns]
        have hf : cellDelta r w h g p = none := by simp [cellDelta, htr, hns]
        rw [hstep, List.filterMap_cons, hf]
        exact ih acc ld
      · have hstep : scanCells r w h g (p :: ps) acc ld
            = scanCells r w h g ps (acc ++ [(p, ns)])
                (ld + if ns = CellState.alive then 1 else -1) := by
          simp [scanCells, htr, hns]
        have hf : cellDelta r w h g p = some (p, ns) := by simp [cellDelta, htr, hns]
        rw [hstep, List.filterMap_cons, hf]
        rcases ih (acc ++ [(p, ns)]) (ld + if ns = CellState.alive then 1 else -1) with
          h | ⟨h1, h2⟩
        · left; exact h
        · right
          refine ⟨h1, ?_⟩
          rw [h2, List.append_assoc, List.singleton_append]

theorem scanCells_liveDelta (r : GameRules) (w h : Int) (g : Grid) :
    ∀ (ps : List (Nat × Nat)) (acc : List ((Nat × Nat) × CellState)) (ld : Int),
      (scanCells r w h g ps acc ld).2.1
        = ld + deltaWeight (scanCells r w h g ps acc ld).1 - deltaWeight acc := by
  intro ps
  induction ps with
  | nil => intro acc ld; simp [scanCells]
  | cons p ps ih =>
    intro acc ld
    rcases htr : r.transitions (cellAt g p) (numLiveNeighbors w h g p) with _ | ns
    · simp [scanCells, htr]
    · by_cases hns : ns = cellAt g p
      · rw [show scanCells r w h g (p :: ps) acc ld = scanCells r w h g ps acc ld from by
          simp [scanCells, htr, hns]]
        exact ih acc ld
      · rw [show scanCells r w h g (p :: ps) acc ld = scanCells r w h g ps
            (acc ++ [(p, ns)]) (ld + if ns = CellState.alive then 1 else -1) from by
          simp [scanCells, htr, hns]]
        rw [ih]
        have hw' : deltaWeight (acc ++ [(p, ns)])
            = deltaWeight acc + (if ns = CellState.alive then 1 else -1) := by
          simp [deltaWeight]
        rw [hw']
        ring

/-- Claim C2: `step()` is a simultaneous update — whenever the scan completes,
the returned delta list is exactly the per-cell deltas computed cell by cell
from the pre-step snapshot of the grid; and on a 3×3 all-alive board under
default rules a single step reports exactly the four edge midpoints and the
center becoming dead, with no delta for the four corners. -/
theorem step_is_simultaneous_update :
    (∀ b : GameBoard, (b.update).2 = Except.error PyErr.keyError ∨
        (b.update).2 = Except.ok (simultaneousDeltas b)) ∧
    ((mkBoard 3 3 defaultRules fun _ _ => 0).update).2
      = Except.ok [((1, 0), CellState.dead), ((0, 1), CellState.dead),
          ((1, 1), CellState.dead), ((2, 1), CellState.dead),
          ((1, 2), CellState.dead)] := by
  constructor
  · intro b
    rcases scanCells_ok_or_flag b.rules b.numCellsX b.numCellsY b.board
        (boardPositions b.board) [] 0 with h | ⟨h1, h2⟩
    · left
      simp [GameBoard.update, h]
    · right
      simp [GameBoard.update, h1, h2, simultaneousDeltas]
  · decide

theorem cellDelta_fst (r : GameRules) (w h : Int) (g : Grid) (p : Nat × Nat)
    (q : (Nat × Nat) × CellState) (hq : cellDelta r w h g p = some q) : q.1 = p := by
  rcases htr : r.transitions (cellAt g p) (numLiveNeighbors w h g p) with _ | ns
  · simp [cellDelta, htr] at hq
  · by_cases hns : ns = cellAt g p
    · simp [cellDelta, htr, hns] at hq
    · simp [cellDelta, htr, hns] at hq
      rw [← hq]

theorem fst_filterMap_cellDelta_sublist (r : GameRules) (w h : Int) (g : Grid) :
    ∀ ps : List (Nat × Nat),
      ((ps.filterMap (cellDelta r w h g)).map Prod.fst).Sublist ps := by
  intro ps
  induction ps with
  | nil => simp
  | cons p ps ih =>
    rw [List.filterMap_cons]
    rcases hf : cellDelta r w h g p with _ | q
    · exact ih.cons p
    · rw [List.map_cons, cellDelta_fst r w h g p q hf]
      exact ih.cons₂ p

theorem boardPositionsAux_snd_ge (g : Grid) :
    ∀ (y : Nat), ∀ p ∈ boardPositionsAux y g, y ≤ p.2 := by
  induction g with
  | nil => intro y p hp; simp [boardPositionsAux] at hp
  | cons row rest ih =>
    intro y p hp
    rw [boardPositionsAux, List.mem_append] at hp
    rcases hp with hp | hp
    · simp only [rowPositions, List.mem_map, List.mem_range] at hp
      obtain ⟨x, _, rfl⟩ := hp
      exact Nat.le_refl y
    · exact Nat.le_of_succ_le (ih (y + 1) p hp)

theorem pairwise_boardPositionsAux (g : Grid) :
    ∀ y : Nat, (boardPositionsAux y g).Pairwise rmLt := by
  induction g with
  | nil => intro y; simp [boardPositionsAux]
  | cons row rest ih =>
    intro y
    rw [boardPositionsAux, List.pairwise_append]
    refine ⟨?_, ih (y + 1), ?_⟩
    · rw [rowPositions, List.pairwise_map]
      exact (List.pairwise_lt_range row.length).imp fun hab => Or.inr ⟨rfl, hab⟩
    · intro p hp q hq
      have hps : p.2 = y := by
        simp only [rowPositions, List.mem_map, List.mem_range] at hp
        obtain ⟨x, _, rfl⟩ := hp
        rfl
      have hqs : y + 1 ≤ q.2 := boardPositionsAux_snd_ge rest (y + 1) q hq
      exact Or.inl (by omega)

/-- Claim C10: the delta list of `step()` lists the changed cells in row-major
scan order (smaller `y` first, then smaller `x`), and is a deterministic
function of the pre-step cell states (including the grid dimensions they sit
in) and the rule table — two boards agreeing on those produce identical delta
lists. -/
theorem step_deltas_row_major_deterministic :
    (∀ (b : GameBoard) (ds : List ((Nat × Nat) × CellState)),
        (b.update).2 = Except.ok ds → (ds.map Prod.fst).Pairwise rmLt) ∧
    (∀ b1 b2 : GameBoard, b1.board = b2.board → b1.rules = b2.rules →
        b1.numCellsX = b2.numCellsX → b1.numCellsY = b2.numCellsY →
        (b1.update).2 = (b2.update).2) := by
  constructor
  · intro b ds hds
    rcases scanCells_ok_or_flag b.rules b.numCellsX b.numCellsY b.board
        (boardPositions b.board) [] 0 with h | ⟨h1, h2⟩
    · simp [GameBoard.update, h] at hds
    · simp only [GameBoard.update, h1] at hds
      rw [if_neg (by simp [h1])] at hds
      simp only [Except.ok.injEq] at hds
      rw [← hds, h2, List.nil_append]
      exact List.Pairwise.sublist
        (fst_filterMap_cellDelta_sublist b.rules b.numCellsX b.numCellsY b.board
          (boardPositions b.board))
        (pairwise_boardPositionsAux b.board 0)
  · intro b1 b2 hb hr hx hy
    cases hc : (scanCells b2.rules b2.numCellsX b2.numCellsY b2.board
        (boardPositions b2.board) [] 0).2.2
    · simp [GameBoard.update, hb, hr, hx, hy, hc]
    · simp [GameBoard.update, hb, hr, hx, hy, hc]

theorem step_deltas_row_major_deterministic_witness :
    (([((1, 0), CellState.dead), ((0, 1), CellState.dead), ((1, 1), CellState.dead),
        ((2, 1), CellState.dead), ((1, 2), CellState.dead)].map Prod.fst).Pairwise rmLt) ∧
    ((mkBoard 2 2 defaultRules fun _ _ => 0).update).2
      = ((mkBoard 2 2 defaultRules fun _ _ => 0).update).2 :=
  ⟨step_deltas_row_major_deterministic.1 (mkBoard 3 3 defaultRules fun _ _ => 0) _
      (by decide),
   step_deltas_row_major_deterministic.2 (mkBoard 2 2 defaultRules fun _ _ => 0)
      (mkBoard 2 2 defaultRules fun _ _ => 0) rfl rfl rfl rfl⟩

/-- Claim C6 (amended): `step()` either fully commits the generation — the
cells are rewritten according to the returned deltas, `_live_count` is
adjusted by their net weight, the generation counter is incremented by 1 — or,
when a rule-domain violation occurs, it fails with every cell state unchanged
but with the generation counter already incremented (and `_live_count`
carrying the adjustments for the cells scanned before the failing lookup). -/
theorem step_commit_or_cells_unchanged (b : GameBoard) :
    ((b.update).1.generation = b.generation + 1) ∧
    ((b.update).2.isOk = false →
      (b.update).1.board = b.board ∧ (b.update).2 = Except.error PyErr.keyError) ∧
    (∀ ds, (b.update).2 = Except.ok ds →
      (b.update).1.board = applyChanges b.board ds ∧
      (b.update).1.liveCount = b.liveCount + deltaWeight ds) := by
  have hld := scanCells_liveDelta b.rules b.numCellsX b.numCellsY b.board
    (boardPositions b.board) [] 0
  cases hc : (scanCells b.rules b.numCellsX b.numCellsY b.board
      (boardPositions b.board) [] 0).2.2
  · refine ⟨by simp [GameBoard.update, hc], ?_, ?_⟩
    · intro hok
      simp [GameBoard.update, hc, Except.isOk, Except.toBool] at hok
    · intro ds hds
      simp only [GameBoard.update, hc] at hds ⊢
      rw [if_neg (by simp)] at hds ⊢
      simp only [Except.ok.injEq] at hds
      refine ⟨by rw [hds], ?_⟩
      simp only [GameBoard.liveCount]
      rw [hld, hc] at *
      rw [← hds]
      simp [deltaWeight, hld]
  · refine ⟨by simp [GameBoard.update, hc], ?_, ?_⟩
    · intro _
      simp [GameBoard.update, hc]
    · intro ds hds
      simp [GameBoard.update, hc] at hds

theorem step_commit_or_cells_unchanged_witness :
    ((mkBoard 1 1
        { transitions := fun s n =>
            if s = CellState.dead ∧ n = 0 then none
            else defaultRules.transitions s n }
        fun _ _ => 1).update).1.board
      = (mkBoard 1 1
          { transitions := fun s n =>
              if s = CellState.dead ∧ n = 0 then none
              else defaultRules.transitions s n }
          fun _ _ => 1).board ∧
    ((mkBoard 3 3 defaultRules fun _ _ => 0).update).1.liveCount
      = (mkBoard 3 3 defaultRules fun _ _ => 0).liveCount
        + deltaWeight [((1, 0), CellState.dead), ((0, 1), CellState.dead),
            ((1, 1), CellState.dead), ((2, 1), CellState.dead),
            ((1, 2), CellState.dead)] :=
  ⟨((step_commit_or_cells_unchanged
      (mkBoard 1 1
        { transitions := fun s n =>
            if s = CellState.dead ∧ n = 0 then none
            else defaultRules.transitions s n }
        fun _ _ => 1)).2.1 (by decide)).1,
   ((step_commit_or_cells_unchanged (mkBoard 3 3 defaultRules fun _ _ => 0)).2.2
      [((1, 0), CellState.dead), ((0, 1), CellState.dead), ((1, 1), CellState.dead),
        ((2, 1), CellState.dead), ((1, 2), CellState.dead)] (by decide)).2⟩

theorem getD_mem_or_default {α : Type} (l : List α) (n : Nat) (d : α) :
    l.getD n d = d ∨ l.getD n d ∈ l := by
  by_cases h : n < l.length
  · right
    rw [List.getD_eq_getElem l d h]
    exact List.getElem_mem ..
  · left
    exact List.getD_eq_default l d (by omega)

theorem cellAt_eq_dead_of_forall (g : Grid) (p : Nat × Nat)
    (hg : ∀ row ∈ g, ∀ s ∈ row, s = CellState.dead) : cellAt g p = CellState.dead := by
  rw [cellAt]
  rcases getD_mem_or_default g p.2 [] with hrow | hrow
  · rw [hrow]
    rfl
  · rcases getD_mem_or_default (g.getD p.2 []) p.1 CellState.dead with hs | hs
    · exact hs
    · exact hg _ hrow _ hs

theorem cellAt_seedGrid_of_ne (w h : Int) (c : Nat → Nat → Nat)
    (hc : ∀ x y, c x y ≠ 0) (p : Nat × Nat) :
    cellAt (seedGrid w h c) p = CellState.dead := by
  apply cellAt_eq_dead_of_forall
  intro row hrow s hs
  simp only [seedGrid, pyRange, List.mem_map] at hrow
  obtain ⟨y, _, rfl⟩ := hrow
  simp only [List.mem_map] at hs
  obtain ⟨x, _, rfl⟩ := hs
  simp [hc x y]

theorem numLiveNeighbors_seedGrid_ne (w h wb hb : Int) (c : Nat → Nat → Nat)
    (hc : ∀ x y, c x y ≠ 0) (p : Nat × Nat) :
    numLiveNeighbors w h (seedGrid wb hb c) p = 0 := by
  rw [numLiveNeighbors, List.length_eq_zero, List.filter_eq_nil_iff]
  intro q _
  simp [cellAt_seedGrid_of_ne wb hb c hc q]

theorem scanCells_all_become_alive (r : GameRules) (w h : Int) (g : Grid)
    (htr : ∀ p : Nat × Nat,
      r.transitions (cellAt g p) (numLiveNeighbors w h g p) = some CellState.alive)
    (hdead : ∀ p : Nat × Nat, cellAt g p = CellState.dead) :
    ∀ (ps : List (Nat × Nat)) (acc : List ((Nat × Nat) × CellState)) (ld : Int),
      scanCells r w h g ps acc ld
        = (acc ++ ps.map fun p => (p, CellState.alive), ld + ps.length, false) := by
  intro ps
  induction ps with
  | nil => intro acc ld; simp [scanCells]
  | cons p ps ih =>
    intro acc ld
    have h1 : r.transitions CellState.dead (numLiveNeighbors w h g p)
        = some CellState.alive := by
      rw [← hdead p]
      exact htr p
    rw [show scanCells r w h g (p :: ps) acc ld
        = scanCells r w h g ps (acc ++ [(p, CellState.alive)]) (ld + 1) from by
      simp [scanCells, hdead p, h1]]
    rw [ih]
    refine Prod.ext ?_ (Prod.ext ?_ rfl)
    · simp
    · simp only [List.length_cons]
      push_cast
      ring

theorem boardPositionsAux_of_uniform (L : Nat) :
    ∀ (g : Grid) (y : Nat), (∀ row ∈ g, row.length = L) →
      boardPositionsAux y g
        = (List.range' y g.length).flatMap fun j => rowPositions j L := by
  intro g
  induction g with
  | nil => intro y _; simp [boardPositionsAux]
  | cons row rest ih =>
    intro y hrow
    rw [boardPositionsAux, hrow row (by simp), List.length_cons, List.range'_succ,
      List.flatMap_cons, ih (y + 1) fun a ha => hrow a (by simp [ha])]

theorem boardPositions_seedGrid (w h : Int) (c : Nat → Nat → Nat) :
    boardPositions (seedGrid w h c) = rowMajor w.toNat h.toNat := by
  rw [boardPositions, rowMajor,
    boardPositionsAux_of_uniform w.toNat (seedGrid w h c) 0 ?_]
  · rw [show (seedGrid w h c).length = h.toNat from by simp [seedGrid, pyRange],
      ← List.range_eq_range']
  · intro row hrow
    simp only [seedGrid, pyRange, List.mem_map] at hrow
    obtain ⟨y, _, rfl⟩ := hrow
    simp

theorem rowMajor_length (w h : Nat) : (rowMajor w h).length = h * w := by
  induction h with
  | zero => simp [rowMajor]
  | succ n ih =>
    rw [rowMajor, List.range_succ, List.flatMap_append, List.length_append,
      ← rowMajor]
    rw [ih]
    simp [rowPositions, Nat.succ_mul]

theorem aliveCount_seedGrid_ne (w h : Int) (c : Nat → Nat → Nat)
    (hc : ∀ x y, c x y ≠ 0) : aliveCount (seedGrid w h c) = 0 := by
  rw [aliveCount]
  apply List.sum_eq_zero
  intro n hn
  simp only [List.mem_map] at hn
  obtain ⟨row, hrow, rfl⟩ := hn
  simp only [seedGrid, pyRange, List.mem_map] at hrow
  obtain ⟨y, _, rfl⟩ := hrow
  rw [List.length_eq_zero, List.filter_eq_nil_iff]
  intro a ha
  simp only [List.mem_map] at ha
  obtain ⟨x, _, rfl⟩ := ha
  simp [hc x y]

/-- Claim C8: `set_rule` overwrites exactly the addressed table entry (every
other lookup is unchanged), and the change is observed by the very next step
of any board sharing the table: after `set_rule(dead, 0, alive)`, stepping a
fully dead `w × h` board (seeded by draws that never hit 0, so every cell is
dead and `_live_count` is 0) returns a delta list turning every cell alive,
and `_live_count` equals `w * h` afterwards. -/
theorem set_rule_immediate_effect :
    (∀ (r : GameRules) (s : CellState) (n : Nat) (ns : CellState)
        (s' : CellState) (n' : Nat),
        (setRule r s n ns).transitions s' n'
          = if s' = s ∧ n' = n then some ns else r.transitions s' n') ∧
    (∀ w h : Nat,
      ((mkBoard (w : Int) (h : Int)
          (setRule defaultRules CellState.dead 0 CellState.alive)
          fun _ _ => 1).update).2
        = Except.ok ((rowMajor w h).map fun p => (p, CellState.alive)) ∧
      ((mkBoard (w : Int) (h : Int)
          (setRule defaultRules CellState.dead 0 CellState.alive)
          fun _ _ => 1).update).1.liveCount = (w : Int) * (h : Int)) := by
  constructor
  · intro r s n ns s' n'
    rfl
  · intro w h
    set r' := setRule defaultRules CellState.dead 0 CellState.alive with hr'
    set c : Nat → Nat → Nat := fun _ _ => 1 with hcdef
    have hc : ∀ x y, c x y ≠ 0 := fun _ _ => one_ne_zero
    have hdead := cellAt_seedGrid_of_ne (w : Int) (h : Int) c hc
    have hnb := numLiveNeighbors_seedGrid_ne (w : Int) (h : Int) (w : Int) (h : Int) c hc
    have htr : ∀ p : Nat × Nat,
        r'.transitions (cellAt (seedGrid (w : Int) (h : Int) c) p)
          (numLiveNeighbors (w : Int) (h : Int) (seedGrid (w : Int) (h : Int) c) p)
          = some CellState.alive := by
      intro p
      rw [hdead p, hnb p]
      rfl
    have hpos : boardPositions (seedGrid (w : Int) (h : Int) c) = rowMajor w h := by
      rw [boardPositions_seedGrid]
      simp
    have hscan : scanCells r' (w : Int) (h : Int) (seedGrid (w : Int) (h : Int) c)
        (boardPositions (seedGrid (w : Int) (h : Int) c)) [] 0
        = ((rowMajor w h).map fun p => (p, CellState.alive),
            ((rowMajor w h).length : Int), false) := by
      rw [scanCells_all_become_alive r' (w : Int) (h : Int)
        (seedGrid (w : Int) (h : Int) c) htr hdead, hpos]
      simp
    constructor
    · simp only [GameBoard.update, mkBoard]
      rw [hscan]
      simp
    · simp only [GameBoard.update, mkBoard]
      rw [hscan]
      simp only [Bool.false_eq_true, if_false]
      rw [aliveCount_seedGrid_ne (w : Int) (h : Int) c hc, rowMajor_length]
      push_cast
      ring

theorem reseedGridAux_uniform (rand : Nat → Nat → Nat) (L : Nat) :
    ∀ (g : Grid) (k : Nat), (∀ row ∈ g, row.length = L) →
      reseedGridAux rand k g = (List.range' k g.length).map fun j =>
        (List.range L).map fun x =>
          if rand x j = 0 then CellState.alive else CellState.dead := by
  intro g
  induction g with
  | nil => intro k _; simp [reseedGridAux]
  | cons row rest ih =>
    intro k hrow
    rw [reseedGridAux, hrow row (by simp), List.length_cons, List.range'_succ,
      List.map_cons, ih (k + 1) fun a ha => hrow a (by simp [ha])]

/-- The resize path rebuilds everything: constructing a fresh board and
immediately resetting it (as `change_size` does) gives exactly the board a
fresh construction seeded by the reset draws would give. -/
theorem reset_mkBoard (w h : Int) (r : GameRules) (s1 s2 : Nat → Nat → Nat) :
    (mkBoard w h r s1).reset s2 = mkBoard w h r s2 := by
  have hgrid : reseedGridAux s2 0 (seedGrid w h s1) = seedGrid w h s2 := by
    rw [reseedGridAux_uniform s2 w.toNat (seedGrid w h s1) 0 ?_]
    · rw [show (seedGrid w h s1).length = h.toNat from by simp [seedGrid, pyRange],
        ← List.range_eq_range']
      rfl
    · intro row hrow
      simp only [seedGrid, pyRange, List.mem_map] at hrow
      obtain ⟨y, _, rfl⟩ := hrow
      simp
  simp [GameBoard.reset, mkBoard, hgrid]

/-- Claim C5 (amended): construction performs no dimension validation and
cannot fail — with `width ≤ 0` or `height ≤ 0` it succeeds and produces a
board with no cells; and resize (`change_size`: drop the old board, construct
a fresh one, reset it) is equivalent to destroying and reconstructing the
board at the new dimensions with the reseeding draws — topology, cells,
counters and initial deltas all rebuilt, generation 0. -/
theorem construction_resize_no_validation (w h : Int) (r : GameRules)
    (rand1 rand2 : Nat → Nat → Nat) :
    (mkBoardE w h r rand1).isOk = true ∧
    (w ≤ 0 ∨ h ≤ 0 → gridCellCount (mkBoard w h r rand1).board = 0) ∧
    changeSize w h r rand1 rand2 = mkBoard w h r rand2 := by
  refine ⟨rfl, ?_, reset_mkBoard w h r rand1 rand2⟩
  intro hwh
  rcases hwh with hw | hh
  · rw [gridCellCount]
    apply List.sum_eq_zero
    intro n hn
    simp only [mkBoard, seedGrid, pyRange, List.map_map, List.mem_map] at hn
    obtain ⟨y, _, rfl⟩ := hn
    simp [Int.toNat_of_nonpos hw]
  · simp [mkBoard, seedGrid, pyRange, gridCellCount, Int.toNat_of_nonpos hh]

theorem construction_resize_no_validation_witness :
    gridCellCount (mkBoard (-2) 4 defaultRules fun _ _ => 0).board = 0 :=
  (construction_resize_no_validation (-2) 4 defaultRules (fun _ _ => 0)
    (fun _ _ => 0)).2.1 (Or.inl (by decide))

theorem toggledState_toggledState (s : CellState) : toggledState (toggledState s) = s := by
  cases s <;> rfl

theorem pyIndex_coe_of_lt (len i : Nat) (h : i < len) : pyIndex len (i : Int) = some i := by
  rw [pyIndex, if_pos ⟨Int.natCast_nonneg i, by exact_mod_cast h⟩, Int.toNat_natCast]

theorem set_getD_self {α : Type} (l : List α) (i : Nat) (d : α) (h : i < l.length) :
    l.set i (l.getD i d) = l := by
  apply List.ext_getElem
  · simp
  · intro n h1 h2
    rw [List.getElem_set]
    split
    · next heq =>
      subst heq
      rw [List.getD_eq_getElem l d h]
    · rfl

theorem setCell_setCell_cancel (g : Grid) (x y : Nat)
    (hy : y < g.length) (hx : x < (g.getD y []).length) (v : CellState) :
    setCell (setCell g (x, y) v) (x, y) (cellAt g (x, y)) = g := by
  have hrow : (setCell g (x, y) v).getD y [] = (g.getD y []).set x v := by
    show (g.set y ((g.getD y []).set x v)).getD y [] = (g.getD y []).set x v
    rw [List.getD_eq_getElem _ _ (by simpa using hy), List.getElem_set_self]
  show (setCell g (x, y) v).set y
      (((setCell g (x, y) v).getD y []).set x (cellAt g (x, y))) = g
  rw [hrow]
  show (g.set y ((g.getD y []).set x v)).set y
      (((g.getD y []).set x v).set x (cellAt g (x, y))) = g
  rw [List.set_set, List.set_set]
  rw [show cellAt g (x, y) = (g.getD y []).getD x CellState.dead from rfl]
  rw [set_getD_self _ _ _ hx, set_getD_self _ _ _ hy]

theorem toggleCell_eq (b : GameBoard) (x y : Nat)
    (hy : y < b.board.length) (hx : x < (b.board.getD y []).length) :
    b.toggleCell (x : Int) (y : Int)
      = Except.ok
        ({ b with
            board := setCell b.board (x, y) (toggledState (cellAt b.board (x, y))) },
         [((x, y), toggledState (cellAt b.board (x, y)))]) := by
  simp only [GameBoard.toggleCell, pyIndex_coe_of_lt _ _ hy, pyIndex_coe_of_lt _ _ hx]

/-- Claim C9: toggling the same in-bounds cell twice in succession returns the
whole board to exactly its original state — the cell is back to its first
state, and `_live_count`, the generation, and every other field were never
touched by `toggle_cell` in the first place. -/
theorem toggle_toggle_round_trip (b : GameBoard) (x y : Nat)
    (hy : y < b.board.length) (hx : x < (b.board.getD y []).length) :
    ∃ b1 d1 d2,
      b.toggleCell (x : Int) (y : Int) = Except.ok (b1, d1) ∧
      b1.toggleCell (x : Int) (y : Int) = Except.ok (b, d2) := by
  refine ⟨_, _, [((x, y), cellAt b.board (x, y))], toggleCell_eq b x y hy hx, ?_⟩
  have hy1 : y < (setCell b.board (x, y) (toggledState (cellAt b.board (x, y)))).length := by
    simpa [setCell] using hy
  have hrow1 : (setCell b.board (x, y) (toggledState (cellAt b.board (x, y)))).getD y []
      = (b.board.getD y []).set x (toggledState (cellAt b.board (x, y))) := by
    show (b.board.set y _).getD y [] = _
    rw [List.getD_eq_getElem _ _ (by simpa [setCell] using hy), List.getElem_set_self]
  have hx1 : x < ((setCell b.board (x, y)
      (toggledState (cellAt b.board (x, y)))).getD y []).length := by
    rw [hrow1]
    simpa using hx
  have hcell1 : cellAt (setCell b.board (x, y)
        (toggledState (cellAt b.board (x, y)))) (x, y)
      = toggledState (cellAt b.board (x, y)) := by
    show ((setCell b.board (x, y) (toggledState (cellAt b.board (x, y)))).getD y
        []).getD x CellState.dead = _
    rw [hrow1, List.getD_eq_getElem _ _ (by simpa using hx), List.getElem_set_self]
  have e2 := toggleCell_eq
    { b with board := setCell b.board (x, y) (toggledState (cellAt b.board (x, y))) }
    x y hy1 hx1
  rw [e2]
  dsimp only
  rw [hcell1, toggledState_toggledState,
    show setCell (setCell b.board (x, y) (toggledState (cellAt b.board (x, y)))) (x, y)
        (cellAt b.board (x, y)) = b.board from
      setCell_setCell_cancel b.board x y hy hx (toggledState (cellAt b.board (x, y)))]

theorem toggle_toggle_round_trip_witness :
    ∃ b1 d1 d2,
      (mkBoard 2 2 defaultRules fun _ _ => 0).toggleCell ((0 : Nat) : Int)
          ((0 : Nat) : Int) = Except.ok (b1, d1) ∧
      b1.toggleCell ((0 : Nat) : Int) ((0 : Nat) : Int)
        = Except.ok (mkBoard 2 2 defaultRules fun _ _ => 0, d2) :=
  toggle_toggle_round_trip (mkBoard 2 2 defaultRules fun _ _ => 0) 0 0
    (by decide) (by decide)

/-- Claim C7: for an at-least-2×2 grid, the topology contains a neighbor iff
both coordinates of the 8-directionally offset position lie inside
`[0, w) × [0, h)` (no wraparound), and consequently a corner position has
exactly 3 neighbors, a non-corner edge position exactly 5, and an interior
position exactly 8. -/
theorem neighbors_boundary_counts (w h : Int) (x y : Nat)
    (hw : 2 ≤ w) (hh : 2 ≤ h) (hx : (x : Int) < w) (hy : (y : Int) < h) :
    (∀ q : Nat × Nat, q ∈ findNeighbors w h x y ↔
      ∃ d ∈ directionsList,
        0 ≤ (x : Int) + d.1 ∧ (x : Int) + d.1 < w ∧
        0 ≤ (y : Int) + d.2 ∧ (y : Int) + d.2 < h ∧
        q = (((x : Int) + d.1).toNat, ((y : Int) + d.2).toNat)) ∧
    (((x = 0 ∨ (x : Int) = w - 1) ∧ (y = 0 ∨ (y : Int) = h - 1)) →
      (findNeighbors w h x y).length = 3) ∧
    ((((x = 0 ∨ (x : Int) = w - 1) ∧ (0 < y ∧ (y : Int) < h - 1)) ∨
      ((0 < x ∧ (x : Int) < w - 1) ∧ (y = 0 ∨ (y : Int) = h - 1))) →
      (findNeighbors w h x y).length = 5) ∧
    (((0 < x ∧ (x : Int) < w - 1) ∧ (0 < y ∧ (y : Int) < h - 1)) →
      (findNeighbors w h x y).length = 8) := by
  refine ⟨?_, ?_, ?_, ?_⟩
  · intro q
    constructor
    · intro hq
      rw [findNeighbors, List.mem_filterMap] at hq
      obtain ⟨d, hd, hfd⟩ := hq
      by_cases c1 : (x : Int) + d.1 < 0 ∨ w ≤ (x : Int) + d.1
      · rw [if_pos c1] at hfd
        exact absurd hfd (by simp)
      · rw [if_neg c1] at hfd
        by_cases c2 : (y : Int) + d.2 < 0 ∨ h ≤ (y : Int) + d.2
        · rw [if_pos c2] at hfd
          exact absurd hfd (by simp)
        · rw [if_neg c2] at hfd
          simp only [Option.some.injEq] at hfd
          push_neg at c1 c2
          exact ⟨d, hd, by omega, by omega, by omega, by omega, hfd.symm⟩
    · rintro ⟨d, hd, h1, h2, h3, h4, rfl⟩
      rw [findNeighbors, List.mem_filterMap]
      refine ⟨d, hd, ?_⟩
      rw [if_neg (by omega), if_neg (by omega)]
  · rintro ⟨hcx | hcx, hcy | hcy⟩
    · subst hcx hcy
      have a1 : ¬(w ≤ 0) := by omega
      have a2 : ¬(w ≤ 1) := by omega
      have b1 : ¬(h ≤ 0) := by omega
      have b2 : ¬(h ≤ 1) := by omega
      simp [findNeighbors, directionsList, List.filterMap_cons, a1, a2, b1, b2]
    · subst hcx
      have hh' : h = (y : Int) + 1 := by omega
      subst hh'
      have a1 : ¬(w ≤ 0) := by omega
      have a2 : ¬(w ≤ 1) := by omega
      have b0 : 0 < y := by omega
      have b1 : ¬(y = 0) := by omega
      simp [findNeighbors, directionsList, List.filterMap_cons, a1, a2, b0, b1]
    · subst hcy
      have hw' : w = (x : Int) + 1 := by omega
      subst hw'
      have a0 : 0 < x := by omega
      have a1 : ¬(x = 0) := by omega
      have b1 : ¬(h ≤ 0) := by omega
      have b2 : ¬(h ≤ 1) := by omega
      simp [findNeighbors, directionsList, List.filterMap_cons, a0, a1, b1, b2]
    · have hw' : w = (x : Int) + 1 := by omega
      have hh' : h = (y : Int) + 1 := by omega
      subst hw' hh'
      have a0 : 0 < x := by omega
      have a1 : ¬(x = 0) := by omega
      have b0 : 0 < y := by omega
      have b1 : ¬(y = 0) := by omega
      simp [findNeighbors, directionsList, List.filterMap_cons, a0, a1, b0, b1]
  · rintro (⟨hcx | hcx, hcy1, hcy2⟩ | ⟨⟨hcx1, hcx2⟩, hcy | hcy⟩)
    · subst hcx
      have a1 : ¬(w ≤ 0) := by omega
      have a2 : ¬(w ≤ 1) := by omega
      have nya : ¬(y = 0) := by omega
      have nyb : ¬(h + 1 ≤ (y : Int)) := by omega
      have ny0 : ¬((y : Int) < 0 ∨ h ≤ (y : Int)) := by omega
      have ny2 : ¬((y : Int) + 1 < 0 ∨ h ≤ (y : Int) + 1) := by omega
      simp [findNeighbors, directionsList, List.filterMap_cons, a1, a2, nya, nyb,
        ny0, ny2]
    · have hw' : w = (x : Int) + 1 := by omega
      subst hw'
      have a0 : 0 < x := by omega
      have a1 : ¬(x = 0) := by omega
      have nya : ¬(y = 0) := by omega
      have nyb : ¬(h + 1 ≤ (y : Int)) := by omega
      have ny0 : ¬((y : Int) < 0 ∨ h ≤ (y : Int)) := by omega
      have ny2 : ¬((y : Int) + 1 < 0 ∨ h ≤ (y : Int) + 1) := by omega
      simp [findNeighbors, directionsList, List.filterMap_cons, a0, a1, nya, nyb,
        ny0, ny2]
    · subst hcy
      have b1 : ¬(h ≤ 0) := by omega
      have b2 : ¬(h ≤ 1) := by omega
      have nxa : ¬(x = 0) := by omega
      have nxb : ¬(w + 1 ≤ (x : Int)) := by omega
      have nx0 : ¬((x : Int) < 0 ∨ w ≤ (x : Int)) := by omega
      have nx2 : ¬((x : Int) + 1 < 0 ∨ w ≤ (x : Int) + 1) := by omega
      simp [findNeighbors, directionsList, List.filterMap_cons, b1, b2, nxa, nxb,
        nx0, nx2]
    · have hh' : h = (y : Int) + 1 := by omega
      subst hh'
      have b0 : 0 < y := by omega
      have b1 : ¬(y = 0) := by omega
      have nxa : ¬(x = 0) := by omega
      have nxb : ¬(w + 1 ≤ (x : Int)) := by omega
      have nx0 : ¬((x : Int) < 0 ∨ w ≤ (x : Int)) := by omega
      have nx2 : ¬((x : Int) + 1 < 0 ∨ w ≤ (x : Int) + 1) := by omega
      simp [findNeighbors, directionsList, List.filterMap_cons, b0, b1, nxa, nxb,
        nx0, nx2]
  · rintro ⟨⟨h1, h2⟩, h3, h4⟩
    have nxa : ¬(x = 0) := by omega
    have nxb : ¬(w + 1 ≤ (x : Int)) := by omega
    have nx0 : ¬((x : Int) < 0 ∨ w ≤ (x : Int)) := by omega
    have nx2 : ¬((x : Int) + 1 < 0 ∨ w ≤ (x : Int) + 1) := by omega
    have nya : ¬(y = 0) := by omega
    have nyb : ¬(h + 1 ≤ (y : Int)) := by omega
    have ny0 : ¬((y : Int) < 0 ∨ h ≤ (y : Int)) := by omega
    have ny2 : ¬((y : Int) + 1 < 0 ∨ h ≤ (y : Int) + 1) := by omega
    simp [findNeighbors, directionsList, List.filterMap_cons, nxa, nxb, nx0, nx2,
      nya, nyb, ny0, ny2]

theorem neighbors_boundary_counts_witness :
    (findNeighbors 3 3 0 0).length = 3 ∧ (findNeighbors 3 3 1 0).length = 5 ∧
      (findNeighbors 3 3 1 1).length = 8 :=
  ⟨(neighbors_boundary_counts 3 3 0 0 (by decide) (by decide) (by decide)
      (by decide)).2.1 ⟨Or.inl rfl, Or.inl rfl⟩,
   (neighbors_boundary_counts 3 3 1 0 (by decide) (by decide) (by decide)
      (by decide)).2.2.1 (Or.inr ⟨⟨by decide, by decide⟩, Or.inl rfl⟩),
   (neighbors_boundary_counts 3 3 1 1 (by decide) (by decide) (by decide)
      (by decide)).2.2.2 ⟨⟨by decide, by decide⟩, by decide, by decide⟩⟩
